import Mathlib

/-!
Verification development for the StressFieldInput kernel
(`src/StressFieldInput/StressFieldInput_Kernel.py`).

The Python kernel is shallowly embedded below: Python floats are modelled as
exact rationals, Python lists as Lean lists, Python dicts as insertion-ordered
association lists, raised exceptions as `Except` errors, and `print` output
(where a claim needs it) as an explicit log of strings.  The classes
`MeshElementData` and `MeshElementCategory` are imported by the kernel from
files that are not part of the source tree; they are modelled from the spec
(section 3) where noted.
-/

/-- Errors a Python run can surface: `keyError` models indexing a dict with a
missing key, `indexError` models indexing a list out of range (or `line[0]` on
an empty string), `attributeError` models calling a method on `None`, and
`outOfFuel` is the fuel-exhaustion marker of the bounded loop driver (it is not
a Python error: a run that only ever returns `outOfFuel` models a run that
never reaches a normal exit). -/
inductive PyError where
  | keyError
  | indexError
  | attributeError
  | outOfFuel
  deriving DecidableEq, Repr

/-- Category keys as the Python kernel uses them: in the default mode
(`characterize_mesh` without a usable `get_category`) the dict key is the
element's integer label; with a classifier it is the string the script
returns. -/
inductive CategoryKey where
  | ofLabel (n : Nat)
  | ofString (s : String)
  deriving DecidableEq, Repr

/-- Deterministic rendering of a category key, used for the derived element-set
name and in diagnostics. -/
def CategoryKey.render : CategoryKey → String
  | .ofLabel n => toString n
  | .ofString s => s

/-- Modelled from the spec (section 3): the `MeshElementData` class (file
`MeshElementData.py`, not under `src/`): one element's derived geometry —
owning instance, part name, label, centroid coordinates.  Accessors
`get_label`, `get_part_name`, `get_x`, `get_y`, `get_z`, `get_instance_name`
are plain field reads. -/
structure MeshElementData where
  instance_name : String
  part_name : String
  label : Nat
  x : ℚ
  y : ℚ
  z : ℚ
  deriving DecidableEq, Repr

instance : Inhabited MeshElementData := ⟨⟨"", "", 0, 0, 0, 0⟩⟩

instance : Inhabited CategoryKey := ⟨.ofLabel 0⟩

/-- Modelled from the spec (section 3): the `MeshElementCategory` class (file
`MeshElementCategory.py`, not under `src/`): a named group of elements sharing
a classification key, in discovery order, with an initially unset 6-component
stress vector. -/
structure MeshElementCategory where
  id : CategoryKey
  part_name : String
  instance_name : String
  elements : List MeshElementData
  stress : Option (List ℚ)
  deriving DecidableEq, Repr

instance : Inhabited MeshElementCategory :=
  ⟨⟨.ofLabel 0, "", "", [], none⟩⟩

/-- Modelled from the spec: constructing a category from its first element. -/
def MeshElementCategory.make (key : CategoryKey) (e : MeshElementData) :
    MeshElementCategory :=
  ⟨key, e.part_name, e.instance_name, [e], none⟩

/-- Modelled from the spec: append an element to a category (discovery
order). -/
def MeshElementCategory.add_element (c : MeshElementCategory)
    (e : MeshElementData) : MeshElementCategory :=
  { c with elements := c.elements ++ [e] }

/-- Modelled from the spec: the first-discovered member of the category. -/
def MeshElementCategory.get_first_element (c : MeshElementCategory) :
    MeshElementData :=
  c.elements.headI

/-- Modelled from the spec: record the stress vector on the category. -/
def MeshElementCategory.define_stress (c : MeshElementCategory)
    (s : List ℚ) : MeshElementCategory :=
  { c with stress := some s }

/-- Modelled from the spec: the assigned stress vector; every run reads it only
after `define_stresses` has set it, so the default is never observed there. -/
def MeshElementCategory.get_stress (c : MeshElementCategory) : List ℚ :=
  c.stress.getD [0, 0, 0, 0, 0, 0]

/-- Modelled from the spec (section 3): the element-set name is computed
deterministically from the category key. -/
def MeshElementCategory.get_set_name (c : MeshElementCategory) : String :=
  "Set-" ++ c.id.render

/-- `PartMeshData`: the per-instance Python dict from category key to category,
modelled as an insertion-ordered association list (Python dicts preserve
insertion order). -/
abbrev PartMeshData := List (CategoryKey × MeshElementCategory)

/-- Lookup in a `PartMeshData` dict (first binding of the key). -/
def pmd_find : PartMeshData → CategoryKey → Option MeshElementCategory
  | [], _ => none
  | (k, c) :: rest, key => if k = key then some c else pmd_find rest key

/-- In-place update of the binding of `key` (Python `d[key].add_element(e)`);
positions of all bindings are preserved. -/
def pmd_update (pmd : PartMeshData) (key : CategoryKey)
    (f : MeshElementCategory → MeshElementCategory) : PartMeshData :=
  pmd.map fun kc => if kc.1 = key then (kc.1, f kc.2) else kc

/-- `MeshData`: one slot per part instance, `none` for instances with zero
elements (the numpy object array holding `None`). -/
abbrev MeshData := List (Option PartMeshData)

/-- A part instance of the host model: part name and meshed elements, each with
a label and node coordinate list. -/
structure MeshElement where
  label : Nat
  nodes : List (ℚ × ℚ × ℚ)
  deriving DecidableEq, Repr

/-- One part instance from `model.rootAssembly.allInstances`. -/
structure PartInstance where
  part_name : String
  elements : List MeshElement
  deriving DecidableEq, Repr

/-- The host model: its root assembly instance registry (key, instance). -/
structure AbaqusModel where
  instances : List (String × PartInstance)
  deriving DecidableEq, Repr

/-- A host job.  `hasModel` models Python `hasattr(job, model-attribute)`. -/
structure AbaqusJob where
  name : String
  hasModel : Bool
  model : AbaqusModel
  deriving DecidableEq, Repr

/-- The host model database `abaqus.mdb`: model registry and job registry,
both as association lists keyed by name. -/
structure AbaqusMdb where
  models : List (String × AbaqusModel)
  jobs : List (String × AbaqusJob)
  deriving DecidableEq, Repr

/-- Registry lookup; `none` models a `KeyError` at the call site. -/
def registry_find {α : Type} : List (String × α) → String → Option α
  | [], _ => none
  | (k, v) :: rest, key => if k = key then some v else registry_find rest key

/-- The user-supplied stress script, abstracted by what `execfile` plus the
subsequent introspection can observe of it: whether it loads, whether it
defines callable `calculate_stress` and `get_category`, the declared argument
names of `calculate_stress`, and the two functions themselves (`none` results
model the Python function raising). -/
structure StressScript where
  loads : Bool
  defines_calculate_stress : Bool
  calculate_stress_callable : Bool
  calculate_stress_args : List String
  defines_get_category : Bool
  get_category_callable : Bool
  get_category : String → ℚ → ℚ → ℚ → Option CategoryKey
  calculate_stress : String → ℚ → ℚ → ℚ → Option (List ℚ)

/-- The result of Python 2 `inspect.getargspec`: a named 4-tuple
`(args, varargs, keywords, defaults)`. -/
structure ArgSpec where
  args : List String
  varargs : Option String
  keywords : Option String
  defaults : List String
  deriving DecidableEq, Repr

/-- `inspect.getargspec(calculate_stress)` for the loaded script. -/
def getargspec (s : StressScript) : ArgSpec :=
  ⟨s.calculate_stress_args, none, none, []⟩

/-- Python `len` applied to the `getargspec` result: the length of the named
4-tuple itself, which is 4 whatever the argument list is.  This mirrors the
source line `args = inspect.getargspec(func)` followed by `len(args)`. -/
def ArgSpec.pyLen (_ : ArgSpec) : Nat := 4

/-- Embedding of `check_stress_script` (kernel lines 88-113).  The source
prints a complaint when `len(args) != 4` but falls through to `return True`
in every case that reaches the argument check. -/
def check_stress_script (s : StressScript) : Bool :=
  if ¬ s.loads then false
  else if ¬ s.defines_calculate_stress then false
  else if ¬ s.calculate_stress_callable then false
  else
    -- the arity branch only prints; control always reaches `return True`
    if (getargspec s).pyLen ≠ 4 then true else true

/-- Embedding of the tail of `run_checks` (kernel lines 61-84): the checks that
run after the four stress-scale checks — active model, default job name,
job registry indexing (which can raise `KeyError`), `hasattr` on the job,
membership of the job name, and the stress-script check. -/
def run_checks_rest (mdb : AbaqusMdb) (default_job : String)
    (stress_script : StressScript) : Except PyError Bool :=
  if mdb.models.length ≤ 0 then .ok false
  else if default_job = "" then .ok false
  else
    match registry_find mdb.jobs default_job with
    | none => .error .keyError
    | some job =>
      if ¬ job.hasModel then .ok false
      else if ¬ (mdb.jobs.map Prod.fst).contains default_job then .ok false
      else .ok (check_stress_script stress_script)

/-- Embedding of `run_checks` (kernel lines 42-84).  Scale counts are Python
ints (modelled as `ℤ`), scale bounds Python floats (modelled as `ℚ`). -/
def run_checks (mdb : AbaqusMdb) (default_job : String)
    (stress_scale_counts : ℤ) (stress_scale_min stress_scale_max : ℚ)
    (stress_script : StressScript) : Except PyError Bool :=
  if stress_scale_counts < 1 then .ok false
  else if stress_scale_max < stress_scale_min then .ok false
  else if stress_scale_max > stress_scale_min ∧ stress_scale_counts = 1 then
    .ok false
  else if stress_scale_max = stress_scale_min ∧ stress_scale_counts > 1 then
    .ok false
  else run_checks_rest mdb default_job stress_script

/-- Embedding of the scale-factor formula of `create_jobs` (kernel lines
257-261): the `i`-th stress scale. -/
def scale_factor (stress_scale_counts : ℤ)
    (stress_scale_min stress_scale_max : ℚ) (i : ℕ) : ℚ :=
  if stress_scale_counts = 1 then stress_scale_min
  else
    stress_scale_min +
      (i : ℚ) * (stress_scale_max - stress_scale_min) /
        ((stress_scale_counts : ℚ) - 1)

/-- The full scale-factor sequence generated by the `create_jobs` loop. -/
def scale_sequence (stress_scale_counts : ℤ)
    (stress_scale_min stress_scale_max : ℚ) : List ℚ :=
  (List.range stress_scale_counts.toNat).map
    (scale_factor stress_scale_counts stress_scale_min stress_scale_max)

/-- Centroid computation of `characterize_mesh` (kernel lines 166-178): sum
the node coordinates, then divide by the node count. -/
def element_centroid (nodes : List (ℚ × ℚ × ℚ)) : ℚ × ℚ × ℚ :=
  let x := nodes.foldl (fun a n => a + n.1) 0
  let y := nodes.foldl (fun a n => a + n.2.1) 0
  let z := nodes.foldl (fun a n => a + n.2.2) 0
  let node_count : ℚ := (nodes.length : ℚ)
  (x / node_count, y / node_count, z / node_count)

/-- Store one element in the per-instance category dict (kernel lines
192-196): append to the existing category when the key is present, otherwise
insert a fresh singleton category at the end. -/
def pmd_store (pmd : PartMeshData) (key : CategoryKey)
    (ed : MeshElementData) : PartMeshData :=
  match pmd_find pmd key with
  | some _ => pmd_update pmd key (fun c => c.add_element ed)
  | none => pmd ++ [(key, MeshElementCategory.make key ed)]

/-- The per-element body of the `characterize_mesh` instance loop (kernel
lines 161-196): derive the centroid, pick the category key — by calling
`get_category` when categorization is enabled (a raise, modelled as `none`,
aborts the whole characterization) or the element's own label otherwise —
and store the element.  Processes the element list left to right. -/
def characterize_elements (categorize : Bool) (script : StressScript)
    (instance_key part_name : String) :
    List MeshElement → PartMeshData → Option PartMeshData
  | [], pmd => some pmd
  | el :: rest, pmd =>
    let c := element_centroid el.nodes
    let element_data : MeshElementData :=
      ⟨instance_key, part_name, el.label, c.1, c.2.1, c.2.2⟩
    let key? : Option CategoryKey :=
      if categorize then script.get_category part_name c.1 c.2.1 c.2.2
      else some (.ofLabel element_data.label)
    match key? with
    | none => none
    | some key =>
      characterize_elements categorize script instance_key part_name rest
        (pmd_store pmd key element_data)

/-- The instance loop of `characterize_mesh` (kernel lines 149-201), processed
left to right: an instance with elements gets its category dict built from an
empty dict (aborting everything when `get_category` raised inside), an
instance without elements stores `None` in its slot. -/
def characterize_slots (categorize : Bool) (script : StressScript) :
    List (String × PartInstance) → Option (List (Option PartMeshData))
  | [] => some []
  | inst :: rest =>
    if inst.2.elements.length > 0 then
      match characterize_elements categorize script inst.1
          inst.2.part_name inst.2.elements [] with
      | none => none
      | some pmd =>
        (characterize_slots categorize script rest).map (some pmd :: ·)
    else (characterize_slots categorize script rest).map (none :: ·)

/-- Embedding of `characterize_mesh` (kernel lines 117-205) from the fetched
instance registry onward (the job/model fetch from `abaqus.mdb` is host glue
executed before the loop).  `categorize` is enabled exactly when the stress
script loads and defines a callable `get_category`.  Returns `none` when
`get_category` raised for some element or when no instance has any element. -/
def characterize_mesh (instances : List (String × PartInstance))
    (stress_script : StressScript) : Option MeshData :=
  let categorize := stress_script.loads && stress_script.defines_get_category
    && stress_script.get_category_callable
  match characterize_slots categorize stress_script instances with
  | none => none
  | some md =>
    -- the `no_mesh` flag: abort when every slot is empty
    if md.all Option.isNone then none else some md

/-- Diagnostic line printed by `define_stresses` when `calculate_stress`
raises for a category (kernel line 234). -/
def stress_failure_message (c : MeshElementCategory) : String :=
  "---> Stress script threw an error during calculation for element " ++
    c.id.render

/-- Stress assignment for a single category (kernel lines 226-238): call
`calculate_stress` on the first element's part name and centroid; on a raise
(modelled as `none`) default to the zero vector and emit the diagnostic. -/
def define_stress_for_category (script : StressScript)
    (c : MeshElementCategory) : MeshElementCategory × List String :=
  let e := c.get_first_element
  match script.calculate_stress e.part_name e.x e.y e.z with
  | some stress => (c.define_stress stress, [])
  | none => (c.define_stress [0, 0, 0, 0, 0, 0], [stress_failure_message c])

/-- Embedding of `define_stresses` (kernel lines 209-239): re-load the script
(`none` on load failure), then walk every instance slot and every category in
dict order, assigning each category its computed stress or the zero vector.
The second component collects the diagnostics printed along the way. -/
def define_stresses (mesh_data : MeshData) (stress_script : StressScript) :
    Option (MeshData × List String) :=
  if ¬ stress_script.loads then none
  else
    some
      (mesh_data.map (fun slot =>
        match slot with
        | none => none
        | some pmd =>
          some (pmd.map fun kc =>
            (kc.1, (define_stress_for_category stress_script kc.2).1))),
       mesh_data.foldr
         (fun slot log =>
           match slot with
           | none => log
           | some pmd =>
             pmd.foldr
               (fun kc l => (define_stress_for_category stress_script kc.2).2 ++ l)
               log)
         [])

/-- Insert the block `xs` into the line buffer at index `n` (the Python slice
assignment `lines[n:n] = xs`). -/
def insert_lines (buffer : List String) (n : ℕ) (xs : List String) :
    List String :=
  buffer.take n ++ xs ++ buffer.drop n

/-- The element-label line loop of `inject_element_sets` (kernel lines
341-358): accumulate labels onto `line` separated by a comma and a space,
flushing the line whenever it holds 8 labels or the last element has been
added.  `line` is the partially built line, `element_counter` the number of
labels already on it. -/
def elset_label_lines_go :
    List MeshElementData → String → ℕ → List String
  | [], _, _ => []
  | e :: rest, line, element_counter =>
    let line := line ++ toString e.label ++ ","
    let element_counter := element_counter + 1
    if element_counter = 8 ∨ rest = [] then
      line :: elset_label_lines_go rest "" 0
    else
      elset_label_lines_go rest (line ++ " ") element_counter

/-- The label lines written for one category's element list. -/
def elset_label_lines (elements : List MeshElementData) : List String :=
  elset_label_lines_go elements "" 0

/-- The block of lines `inject_element_sets` splices in for one part instance
(kernel lines 332-358): per category in dict order, a `*Elset` header line
followed by the wrapped label lines. -/
def elset_injection_block (pmd : PartMeshData) : List String :=
  pmd.flatMap fun kc =>
    ("*Elset, elset=" ++ kc.2.get_set_name) :: elset_label_lines kc.2.elements

/-- Python list slicing as `inject_element_sets` uses it on line strings:
`line[:n]` as a character list, total on short strings. -/
def py_take (line : String) (n : ℕ) : List Char :=
  line.data.take n

/-- Python `line[n:]`: the remainder of the line from character `n`. -/
def py_drop (line : String) (n : ℕ) : String :=
  ⟨line.data.drop n⟩

/-- The pending-part matching loop of `inject_element_sets` (kernel lines
290-311): walk `sets_to_inject` from the front, deleting entries whose slot
is `None` or empty; at the first entry whose first category's part name
equals `current_part`, delete it and return it as the matched index; leave
other entries in place.  Returns the updated pending list and the match. -/
def match_pending (mesh_data : MeshData) (current_part : String) :
    List ℕ → List ℕ × Option ℕ
  | [] => ([], none)
  | idx :: rest =>
    match mesh_data.getD idx none with
    | none => match_pending mesh_data current_part rest
    | some pmd =>
      if pmd.length ≤ 0 then match_pending mesh_data current_part rest
      else if pmd.headI.2.part_name = current_part then (rest, some idx)
      else
        let r := match_pending mesh_data current_part rest
        (idx :: r.1, r.2)

/-- The mutable state of the `inject_element_sets` loop: the line buffer, the
read index `next_line`, the pending instance-index list `sets_to_inject`, and
`current_part_index` (`none` models the sentinel value -1, scanning mode). -/
structure ScanState where
  buffer : List String
  next_line : ℕ
  pending : List ℕ
  cpi : Option ℕ
  deriving DecidableEq, Repr

instance : DecidableEq (Except PyError ScanState) := fun a b =>
  match a, b with
  | .error e1, .error e2 =>
    if h : e1 = e2 then .isTrue (by rw [h]) else .isFalse (by simp [h])
  | .error _, .ok _ => .isFalse (by simp)
  | .ok _, .error _ => .isFalse (by simp)
  | .ok s1, .ok s2 =>
    if h : s1 = s2 then .isTrue (by rw [h]) else .isFalse (by simp [h])

/-- One iteration of the `inject_element_sets` while-loop body (kernel lines
277-365), excluding the loop-exit test: read the current line (an out-of-range
read is the Python `IndexError` the reference logic can run into), then either
scan for a part header or skip/inject in set-injection mode. -/
def inject_step (mesh_data : MeshData) (s : ScanState) :
    Except PyError ScanState :=
  match s.buffer[s.next_line]? with
  | none => .error .indexError
  | some line =>
    let next_line := s.next_line + 1
    match s.cpi with
    | none =>
      -- scanning mode (kernel lines 283-313)
      if py_take line 12 = "*Part, name=".data then
        let current_part := py_drop line 12
        let m := match_pending mesh_data current_part s.pending
        match m.2 with
        | some idx =>
          -- matched: skip the following node-section line as well
          .ok ⟨s.buffer, next_line + 1, m.1, some idx⟩
        | none => .ok ⟨s.buffer, next_line, m.1, none⟩
      else .ok ⟨s.buffer, next_line, s.pending, none⟩
    | some part_index =>
      -- set-injection mode (kernel lines 315-365)
      match line.data with
      | [] => .error .indexError
      | c :: _ =>
        if c = ' ' then .ok ⟨s.buffer, next_line, s.pending, s.cpi⟩
        else if c = '*' then
          if py_take line 15 = "*Element, type=".data then
            .ok ⟨s.buffer, next_line, s.pending, s.cpi⟩
          else
            -- injection point reached: splice the element sets in before
            -- this marker line, leaving the read index just past the marker
            match mesh_data.getD part_index none with
            | none => .error .attributeError
            | some pmd =>
              let block := elset_injection_block pmd
              let marker_pos := next_line - 1
              .ok ⟨insert_lines s.buffer marker_pos block,
                   marker_pos + block.length + 1, s.pending, none⟩
        else .ok ⟨s.buffer, next_line, s.pending, s.cpi⟩

/-- The `inject_element_sets` while-loop (kernel lines 276-370) driven by
fuel: run one body iteration, then apply the loop-exit test — stop when the
pending list is empty and the machine is not mid-injection.  Exhausted fuel
models a run that never reaches the exit test favourably. -/
def inject_sets_run (mesh_data : MeshData) :
    ℕ → ScanState → Except PyError ScanState
  | 0, _ => .error .outOfFuel
  | fuel + 1, s =>
    match inject_step mesh_data s with
    | .error e => .error e
    | .ok s1 =>
      if s1.pending.length ≤ 0 ∧ s1.cpi = none then .ok s1
      else inject_sets_run mesh_data fuel s1

/-- Embedding of `inject_element_sets` (kernel lines 272-371): start scanning
at line 0 with every instance index pending and no current part. -/
def inject_element_sets (mesh_data : MeshData) (default_input : List String)
    (fuel : ℕ) : Except PyError (List String × ℕ) :=
  (inject_sets_run mesh_data fuel
      ⟨default_input, 0, List.range mesh_data.length, none⟩).map
    fun s => (s.buffer, s.next_line)

/-- The kernel's claim-level notion of a terminating element-set scan: some
fuel bound makes the loop reach its normal exit. -/
def ScanTerminatesOk (mesh_data : MeshData) (default_input : List String) :
    Prop :=
  ∃ fuel s, inject_element_sets mesh_data default_input fuel = .ok s

/-- Componentwise stress scaling of `inject_stress_field` (kernel line 426):
the numpy product `stress_scale * stress`. -/
def scaled_stress (stress_scale : ℚ) (stress : List ℚ) : List ℚ :=
  stress.map fun v => stress_scale * v

/-- The data line `inject_stress_field` builds for one category (kernel lines
428-430): `<instance>.<set_name>,` followed by the scaled components, each
terminated by a comma. -/
def stress_data_line (c : MeshElementCategory) (stress_scale : ℚ) : String :=
  (scaled_stress stress_scale c.get_stress).foldl
    (fun line v => line ++ toString v ++ ",")
    (c.instance_name ++ "." ++ c.get_set_name ++ ",")

/-- Embedding of `inject_stress_field` (kernel lines 401-438) up to the file
write: despite the source comment `Create a copy of the default input`, the
assignment `lines = default_input` aliases the caller's buffer, so the
returned line list is both the written file's contents and the state of the
shared buffer after the call.  Note the category loop inserts every data line
at the same `inject_index` without advancing it, so data lines end up in
reverse iteration order. -/
def inject_stress_field_lines (mesh_data : MeshData) (stress_scale : ℚ)
    (default_input : List String) (inject_index : ℕ)
    (predefined_fields_present : Bool) : List String :=
  let lines := default_input
  let li :=
    if ¬ predefined_fields_present then
      (insert_lines lines inject_index
        ["** ", "** PREDEFINED FIELDS", "** "], inject_index + 3)
    else (lines, inject_index)
  let lines := insert_lines li.1 li.2 ["*Initial Conditions, type=STRESS"]
  let inject_index := li.2 + 1
  mesh_data.foldl
    (fun lines slot =>
      match slot with
      | none => lines
      | some pmd =>
        pmd.foldl
          (fun lines kc =>
            insert_lines lines inject_index [stress_data_line kc.2 stress_scale])
          lines)
    lines

/-- The per-scale loop of `create_jobs` (kernel lines 255-266), keeping only
the produced input-file contents: because `inject_stress_field` aliases its
buffer argument, the buffer each iteration receives is the one the previous
iteration mutated, while `inject_index` and `predefined_fields_present` keep
their original values.  `i` is the loop counter, the second argument the
remaining iteration count. -/
def create_jobs_files_go (mesh_data : MeshData) (stress_scale_counts : ℤ)
    (stress_scale_min stress_scale_max : ℚ) (inject_index : ℕ)
    (predefined_fields_present : Bool) :
    ℕ → ℕ → List String → List (List String)
  | _, 0, _ => []
  | i, n + 1, buffer =>
    let stress_scale :=
      scale_factor stress_scale_counts stress_scale_min stress_scale_max i
    let buffer := inject_stress_field_lines mesh_data stress_scale buffer
      inject_index predefined_fields_present
    buffer :: create_jobs_files_go mesh_data stress_scale_counts
      stress_scale_min stress_scale_max inject_index
      predefined_fields_present (i + 1) n buffer

/-- The list of input files written by the `create_jobs` stress-scale loop,
starting from the base deck captured after element-set injection. -/
def create_jobs_files (mesh_data : MeshData) (stress_scale_counts : ℤ)
    (stress_scale_min stress_scale_max : ℚ) (default_input : List String)
    (inject_index : ℕ) (predefined_fields_present : Bool) :
    List (List String) :=
  create_jobs_files_go mesh_data stress_scale_counts stress_scale_min
    stress_scale_max inject_index predefined_fields_present 0
    stress_scale_counts.toNat default_input

/-- Specification-side chunking (spec section 4.4): split a list into
consecutive chunks of 8, the last chunk possibly shorter. -/
def chunks8 {α : Type} : List α → List (List α)
  | [] => []
  | x :: xs => (x :: xs.take 7) :: chunks8 (xs.drop 7)
termination_by l => l.length
decreasing_by
  simp only [List.length_drop, List.length_cons]
  omega

/-- Specification-side rendering of one label line (spec section 4.4): up to 8
comma-separated element labels, the line terminated by a comma. -/
def render_label_line : List MeshElementData → String
  | [] => ""
  | [e] => toString e.label ++ ","
  | e :: rest => toString e.label ++ ", " ++ render_label_line rest

/-- The partially accumulated (unflushed) label line for a chunk prefix, as
the kernel's string accumulator holds it. -/
def partial_line : List MeshElementData → String
  | [] => ""
  | e :: rest => toString e.label ++ ", " ++ partial_line rest

/-- A deck line the set-injection mode skips (kernel lines 316-323 and
363-365): a continuation line starting with a space, an element-section
marker, or a non-empty data line not starting with an asterisk. -/
def BodyLine (line : String) : Prop :=
  line.data ≠ [] ∧
    (line.data.headI = ' ' ∨ line.data.headI ≠ '*' ∨
      py_take line 15 = "*Element, type=".data)

/-- A deck line that triggers element-set injection (kernel lines 320-325): it
starts with an asterisk and is not an element-section marker. -/
def MarkerLine (line : String) : Prop :=
  line.data.head? = some '*' ∧ ¬ py_take line 15 = "*Element, type=".data

instance (line : String) : Decidable (BodyLine line) := by
  unfold BodyLine
  infer_instance

instance (line : String) : Decidable (MarkerLine line) := by
  unfold MarkerLine
  infer_instance

/-- Wellformedness of the part of the deck the `inject_element_sets` scan has
still to read, relative to the still-pending instance indices: interleaved
non-header lines, and — in pending order — one block per pending instance
consisting of its part-header line, the node-section line, body lines and an
injection-point marker line.  Every pending slot must be non-empty: the
kernel drops an empty slot from the pending list only when it scans a later
part header, so empty slots are covered by the blocks that drop them only
in this all-non-empty form. -/
inductive GoodSuffix (md : MeshData) : List ℕ → List String → Prop where
  | nil (suffix : List String) : GoodSuffix md [] suffix
  | skip (l : String) (p : ℕ) (ps : List ℕ) (rest : List String)
      (hl : ¬ py_take l 12 = "*Part, name=".data)
      (h : GoodSuffix md (p :: ps) rest) :
      GoodSuffix md (p :: ps) (l :: rest)
  | block (p : ℕ) (ps : List ℕ) (name node : String) (body : List String)
      (marker : String) (rest : List String) (pmd : PartMeshData)
      (hslot : md.getD p none = some pmd)
      (hne : pmd ≠ [])
      (hname : pmd.headI.2.part_name = name)
      (hbody : ∀ l ∈ body, BodyLine l)
      (hmark : MarkerLine marker)
      (h : GoodSuffix md ps rest) :
      GoodSuffix md (p :: ps)
        (("*Part, name=" ++ name) :: node :: (body ++ marker :: rest))

/-- The scale-sequence law of spec section 8, stated for the kernel's
generated sequence: a single count yields exactly the minimum, several counts
yield the evenly spaced values, and the sequence never decreases. -/
def ScaleSeqLaw (stress_scale_counts : ℤ)
    (stress_scale_min stress_scale_max : ℚ) : Prop :=
  (stress_scale_counts = 1 →
    scale_sequence stress_scale_counts stress_scale_min stress_scale_max =
      [stress_scale_min]) ∧
  (1 < stress_scale_counts →
    ∀ i : ℕ, i < stress_scale_counts.toNat →
      (scale_sequence stress_scale_counts stress_scale_min
          stress_scale_max).getD i 0 =
        stress_scale_min +
          (i : ℚ) * (stress_scale_max - stress_scale_min) /
            ((stress_scale_counts : ℚ) - 1)) ∧
  (scale_sequence stress_scale_counts stress_scale_min
      stress_scale_max).Pairwise (· ≤ ·)

/-- A stress script that loads and defines a well-formed callable
`calculate_stress` with the given function, and no `get_category`. -/
def plain_script (f : String → ℚ → ℚ → ℚ → Option (List ℚ)) : StressScript :=
  { loads := true
    defines_calculate_stress := true
    calculate_stress_callable := true
    calculate_stress_args := ["part", "x", "y", "z"]
    defines_get_category := false
    get_category_callable := false
    get_category := fun _ _ _ _ => none
    calculate_stress := f }

/-- A loadable script whose callable `calculate_stress` declares only the 3
parameters `part`, `x`, `y`. -/
def arity_bug_script : StressScript :=
  { plain_script (fun _ _ _ _ => some [0, 0, 0, 0, 0, 0]) with
    calculate_stress_args := ["part", "x", "y"] }

/-- Fixture: a one-element category of part `A` on instance `I-1`. -/
def cex_category : MeshElementCategory :=
  MeshElementCategory.make (.ofLabel 1) ⟨"I-1", "A", 1, 0, 0, 0⟩

/-- Fixture for the element-set scan: one non-empty instance slot followed by
an element-less instance slot (`None`). -/
def cex_mesh : MeshData :=
  [some [(.ofLabel 1, cex_category)], none]

/-- Fixture deck for the element-set scan: a part-header line, node-section
line and injection-point marker line for the one non-empty instance, and
nothing after. -/
def cex_deck : List String :=
  ["*Part, name=A", "*Node", "*End Part"]

/-- Fixture: the `cex_category` with a defined (empty) stress vector, for the
stress-field injection loop; the component count plays no role in the
buffer-sharing behaviour under test. -/
def c1_category : MeshElementCategory :=
  cex_category.define_stress []

/-- Fixture mesh data for the stress-field injection loop. -/
def c1_mesh : MeshData :=
  [some [(.ofLabel 1, c1_category)]]

/-- Fixture base deck (post element-set injection) for the stress-field
injection loop; the injection index points at the terminator line. -/
def c1_base : List String :=
  ["** BOUNDARY CONDITIONS", "** -"]

/-- Fixture mesh data with two singleton categories in one instance, the
first placed at the origin. -/
def c6_mesh : MeshData :=
  [some
    [(.ofLabel 1, MeshElementCategory.make (.ofLabel 1) ⟨"I-1", "P", 1, 0, 0, 0⟩),
     (.ofLabel 2, MeshElementCategory.make (.ofLabel 2) ⟨"I-1", "P", 2, 1, 0, 0⟩)]]

/-- Fixture script whose `calculate_stress` raises exactly at the origin. -/
def c6_script : StressScript :=
  plain_script fun _ x _ _ =>
    if x = 0 then none else some [1, 2, 3, 4, 5, 6]

/-- Fixture host instances: one instance with two one-node elements. -/
def c7_instances : List (String × PartInstance) :=
  [("I-1", ⟨"P", [⟨1, [(0, 0, 0)]⟩, ⟨2, [(2, 0, 0)]⟩]⟩)]

/-- Fixture deck for a successful element-set scan: one non-empty instance,
with a body line between the node line and the marker. -/
def good_deck : List String :=
  ["*Part, name=A", "*Node", " 1, 0.5, 0.5, 0.5", "*End Part"]

/-- Fixture mesh data whose single slot is non-empty, for the successful
element-set scan. -/
def good_mesh : MeshData :=
  [some [(.ofLabel 1, cex_category)]]

/-- Fixture: seventeen one-node elements with labels 1..17, in order. -/
def seventeen_elements : List MeshElementData :=
  (List.range 17).map fun n => ⟨"I-1", "P", n + 1, 0, 0, 0⟩

/-- The failing category of the `c6_mesh` fixture. -/
def c6_failing_category : MeshElementCategory :=
  MeshElementCategory.make (.ofLabel 1) ⟨"I-1", "P", 1, 0, 0, 0⟩

/-- The conclusion of the recoverable-stress-failure property (spec sections
4.3 and 8) for a category `c` stored at slot `p` under key `k`: the run is
not aborted, the failing category is assigned the zero stress vector, the
diagnostic naming it is emitted, and every category whose stress computation
succeeds retains its computed value. -/
def StressAssignmentSpec (md : MeshData) (script : StressScript) (p : ℕ)
    (k : CategoryKey) (c : MeshElementCategory) : Prop :=
  ∃ md' log, define_stresses md script = some (md', log) ∧
    (∃ pmd', md'.getD p none = some pmd' ∧
      pmd_find pmd' k = some (c.define_stress [0, 0, 0, 0, 0, 0])) ∧
    stress_failure_message c ∈ log ∧
    (∀ q k' pmd₁ c₁ v, md.getD q none = some pmd₁ →
      pmd_find pmd₁ k' = some c₁ →
      script.calculate_stress c₁.get_first_element.part_name
        c₁.get_first_element.x c₁.get_first_element.y
        c₁.get_first_element.z = some v →
      ∃ pmd₁', md'.getD q none = some pmd₁' ∧
        pmd_find pmd₁' k' = some (c₁.define_stress v))

/-- The mesh data `characterize_mesh` produces on the `c7_instances` fixture
(no usable classifier): one slot, two singleton categories keyed by the
element labels. -/
def c7_result : MeshData :=
  [some
    [(.ofLabel 1, MeshElementCategory.make (.ofLabel 1) ⟨"I-1", "P", 1, 0, 0, 0⟩),
     (.ofLabel 2, MeshElementCategory.make (.ofLabel 2) ⟨"I-1", "P", 2, 2, 0, 0⟩)]]

/-!  Theorems.  -/

/-- C2 (counterexample evidence, code bug): a loadable stress script whose
callable `calculate_stress` declares 3 parameters instead of the required 4
is accepted: `check_stress_script` returns `true`, because the source
compares the length of the `getargspec` 4-tuple itself (always 4) and its
complaint branch lacks a `return False` in any case.  The claim says such a
script is rejected (`check_stress_script` returns false). -/
theorem C2_check_stress_script_accepts_bad_arity :
    arity_bug_script.calculate_stress_args = ["part", "x", "y"] ∧
    (getargspec arity_bug_script).args.length = 3 ∧
    check_stress_script arity_bug_script = true := by
  refine ⟨rfl, rfl, ?_⟩
  decide

/-- C4: `run_checks` rejects (returns false, before touching the model
database or any deck work) each of: a scale count below 1, a maximum below
the minimum, distinct bounds with a single count, and equal bounds with more
than one count; and when none of the four conditions holds it proceeds to the
remaining (host and script) checks, rejecting nothing on scale grounds. -/
theorem C4_run_checks_scale_validation (mdb : AbaqusMdb) (dj : String)
    (c : ℤ) (mn mx : ℚ) (s : StressScript) :
    (c < 1 → run_checks mdb dj c mn mx s = .ok false) ∧
    (mx < mn → run_checks mdb dj c mn mx s = .ok false) ∧
    (mx > mn ∧ c = 1 → run_checks mdb dj c mn mx s = .ok false) ∧
    (mx = mn ∧ c > 1 → run_checks mdb dj c mn mx s = .ok false) ∧
    (¬ c < 1 → ¬ mx < mn → ¬ (mx > mn ∧ c = 1) → ¬ (mx = mn ∧ c > 1) →
      run_checks mdb dj c mn mx s = run_checks_rest mdb dj s) := by
  unfold run_checks
  refine ⟨?_, ?_, ?_, ?_, ?_⟩ <;> intros <;> split_ifs <;> rfl

/-- C4 witness: a zero scale count is rejected. -/
theorem C4_witness :
    ((0 : ℤ) < 1) ∧
      run_checks ⟨[], []⟩ "" 0 0 0 arity_bug_script = .ok false :=
  ⟨by decide,
    (C4_run_checks_scale_validation ⟨[], []⟩ "" 0 0 0 arity_bug_script).1
      (by decide)⟩

/-- C10: when the default-job name is non-empty but absent from the job
registry (and the scale checks and active-model check pass), `run_checks`
raises a `KeyError` while indexing the registry, instead of reaching the
membership test that would print the invalid-default-job message and return
false: the registry is indexed before the membership test. -/
theorem C10_missing_job_raises_key_error (mdb : AbaqusMdb) (dj : String)
    (c : ℤ) (mn mx : ℚ) (s : StressScript)
    (hdj : dj ≠ "")
    (hmiss : registry_find mdb.jobs dj = none)
    (hmodels : 0 < mdb.models.length)
    (h1 : ¬ c < 1) (h2 : ¬ mx < mn)
    (h3 : ¬ (mx > mn ∧ c = 1)) (h4 : ¬ (mx = mn ∧ c > 1)) :
    run_checks mdb dj c mn mx s = .error .keyError := by
  unfold run_checks run_checks_rest
  rw [if_neg h1, if_neg h2, if_neg h3, if_neg h4, if_neg (by omega), if_neg hdj,
    hmiss]

/-- C10 witness: a model exists, the job registry is empty, and the requested
default job raises a `KeyError`. -/
theorem C10_witness :
    ("Job-1" : String) ≠ "" ∧
      run_checks ⟨[("Model-1", ⟨[]⟩)], []⟩ "Job-1" 1 1 1 arity_bug_script =
        .error .keyError :=
  ⟨by decide,
    C10_missing_job_raises_key_error ⟨[("Model-1", ⟨[]⟩)], []⟩ "Job-1" 1 1 1
      arity_bug_script (by decide) (by decide) (by decide) (by decide)
      (by decide) (by decide) (by decide)⟩

theorem chunks8_eight_append {α : Type} (l₁ l₂ : List α)
    (h : l₁.length = 8) : chunks8 (l₁ ++ l₂) = l₁ :: chunks8 l₂ := by
  cases l₁ with
  | nil => simp at h
  | cons x xs =>
    have hxs : xs.length = 7 := by simpa using h
    simp only [List.cons_append, chunks8]
    rw [← hxs, List.take_left, List.drop_left]

theorem chunks8_short {α : Type} (l : List α) (h0 : l ≠ [])
    (h : l.length ≤ 8) : chunks8 l = [l] := by
  cases l with
  | nil => exact absurd rfl h0
  | cons x xs =>
    have hxs : xs.length ≤ 7 := by simp at h; omega
    simp only [chunks8]
    rw [List.take_of_length_le hxs, List.drop_eq_nil_of_le hxs]
    simp [chunks8]

theorem chunks8_flatten_le {α : Type} :
    ∀ (n : ℕ) (l : List α), l.length ≤ n → (chunks8 l).flatten = l := by
  intro n
  induction n with
  | zero =>
    intro l hl
    rw [List.eq_nil_of_length_eq_zero (Nat.le_zero.mp hl)]
    simp [chunks8]
  | succ n ih =>
    intro l hl
    cases l with
    | nil => simp [chunks8]
    | cons x xs =>
      simp only [chunks8, List.flatten_cons]
      rw [ih (xs.drop 7) (by simp at hl ⊢; omega)]
      simp [List.take_append_drop]

theorem chunks8_flatten {α : Type} (l : List α) : (chunks8 l).flatten = l :=
  chunks8_flatten_le l.length l le_rfl

theorem chunks8_mem_le {α : Type} :
    ∀ (n : ℕ) (l : List α), l.length ≤ n →
      ∀ c ∈ chunks8 l, c ≠ [] ∧ c.length ≤ 8 := by
  intro n
  induction n with
  | zero =>
    intro l hl
    rw [List.eq_nil_of_length_eq_zero (Nat.le_zero.mp hl)]
    simp [chunks8]
  | succ n ih =>
    intro l hl c hc
    cases l with
    | nil => simp [chunks8] at hc
    | cons x xs =>
      simp only [chunks8, List.mem_cons] at hc
      rcases hc with rfl | hc
      · refine ⟨by simp, ?_⟩
        simp only [List.length_cons, List.length_take]
        omega
      · exact ih (xs.drop 7) (by simp at hl ⊢; omega) c hc

theorem partial_line_snoc (pre : List MeshElementData) (e : MeshElementData) :
    partial_line (pre ++ [e]) = partial_line pre ++ (toString e.label ++ ", ") := by
  induction pre with
  | nil =>
    show toString e.label ++ ", " ++ "" = "" ++ (toString e.label ++ ", ")
    rw [String.append_empty]
    exact (String.empty_append _).symm
  | cons a pre ih =>
    show toString a.label ++ ", " ++ partial_line (pre ++ [e]) = _
    rw [ih]
    simp only [partial_line, String.append_assoc]

theorem render_label_line_cons (a : MeshElementData)
    (l : List MeshElementData) (h : l ≠ []) :
    render_label_line (a :: l) =
      toString a.label ++ ", " ++ render_label_line l := by
  cases l with
  | nil => exact absurd rfl h
  | cons y ys => rfl

theorem render_label_line_snoc (pre : List MeshElementData)
    (e : MeshElementData) :
    render_label_line (pre ++ [e]) =
      partial_line pre ++ (toString e.label ++ ",") := by
  induction pre with
  | nil =>
    show render_label_line [e] = "" ++ (toString e.label ++ ",")
    rw [String.empty_append]
    rfl
  | cons a pre ih =>
    show render_label_line (a :: (pre ++ [e])) = _
    rw [render_label_line_cons a (pre ++ [e]) (by simp), ih]
    simp only [partial_line, String.append_assoc]

theorem elset_go_eq :
    ∀ (els pre : List MeshElementData), pre.length < 8 →
      (els = [] → pre = []) →
      elset_label_lines_go els (partial_line pre) pre.length =
        (chunks8 (pre ++ els)).map render_label_line := by
  intro els
  induction els with
  | nil =>
    intro pre _ hnil
    rw [hnil rfl]
    simp [elset_label_lines_go, chunks8]
  | cons e rest ih =>
    intro pre h8 _
    have hgo0 : elset_label_lines_go rest (partial_line []) 0 =
        (chunks8 ([] ++ rest)).map render_label_line :=
      ih [] (by norm_num) (fun _ => rfl)
    simp only [partial_line, List.nil_append] at hgo0
    simp only [elset_label_lines_go]
    by_cases hcond : pre.length + 1 = 8 ∨ rest = []
    · rw [if_pos hcond]
      have hhead : partial_line pre ++ toString e.label ++ "," =
          render_label_line (pre ++ [e]) := by
        rw [render_label_line_snoc, String.append_assoc]
      rcases hcond with h8e | hrest
      · have hlen : (pre ++ [e]).length = 8 := by simp; omega
        rw [show pre ++ e :: rest = (pre ++ [e]) ++ rest from by simp,
          chunks8_eight_append _ _ hlen, List.map_cons, hhead, hgo0]
      · subst hrest
        rw [chunks8_short (pre ++ [e]) (by simp) (by simp; omega),
          List.map_singleton, hhead]
        simp [elset_label_lines_go]
    · push_neg at hcond
      rw [if_neg (by push_neg; exact hcond)]
      have hacc : partial_line pre ++ toString e.label ++ "," ++ " " =
          partial_line (pre ++ [e]) := by
        rw [partial_line_snoc]
        simp only [String.append_assoc]
        rfl
      have hlen : pre.length + 1 = (pre ++ [e]).length := by simp
      rw [hacc, hlen, ih (pre ++ [e]) (by simp; omega)
        (fun h => absurd h hcond.2)]
      rw [show pre ++ e :: rest = (pre ++ [e]) ++ rest from by simp]

theorem render_label_line_last_comma :
    ∀ (chunk : List MeshElementData), chunk ≠ [] →
      (render_label_line chunk).data.getLast? = some ',' := by
  intro chunk
  induction chunk with
  | nil => intro h; exact absurd rfl h
  | cons e rest ih =>
    intro _
    cases rest with
    | nil =>
      show ((toString e.label ++ ",").data).getLast? = some ','
      rw [String.data_append]
      exact List.getLast?_concat _
    | cons y ys =>
      show ((toString e.label ++ ", " ++
        render_label_line (y :: ys)).data).getLast? = some ','
      rw [String.data_append]
      have hne : (render_label_line (y :: ys)).data ≠ [] := by
        intro hempty
        have := ih (by simp)
        rw [hempty] at this
        simp at this
      rw [List.getLast?_append_of_ne_nil _ hne]
      exact ih (by simp)

/-- C5: the element labels of a category are written in discovery order onto
label lines of at most 8 labels each (the produced lines are exactly the
8-chunks of the element list, rendered comma-separated), every label line is
comma-terminated, and a category with 17 elements produces exactly 3 label
lines carrying 8, 8 and 1 labels (one comma per label). -/
theorem C5_elset_label_lines (els : List MeshElementData) :
    elset_label_lines els = (chunks8 els).map render_label_line ∧
    (chunks8 els).flatten = els ∧
    (∀ c ∈ chunks8 els, c.length ≤ 8) ∧
    (∀ line ∈ elset_label_lines els, line.data.getLast? = some ',') ∧
    (elset_label_lines seventeen_elements).length = 3 ∧
    (elset_label_lines seventeen_elements).map (fun l => l.data.count ',') =
      [8, 8, 1] := by
  have heq : elset_label_lines els = (chunks8 els).map render_label_line := by
    have := elset_go_eq els [] (by norm_num) (fun _ => rfl)
    simpa [elset_label_lines, partial_line] using this
  refine ⟨heq, chunks8_flatten els, ?_, ?_, by decide, by decide⟩
  · intro c hc
    exact (chunks8_mem_le els.length els le_rfl c hc).2
  · intro line hline
    rw [heq] at hline
    obtain ⟨c, hc, rfl⟩ := List.mem_map.mp hline
    exact render_label_line_last_comma c
      (chunks8_mem_le els.length els le_rfl c hc).1

/-- C5 witness: the third label line of the 17-element category is a member
of the produced lines and is comma-terminated. -/
theorem C5_witness :
    ((elset_label_lines seventeen_elements).getD 2 "" ∈
      elset_label_lines seventeen_elements) ∧
    ((elset_label_lines seventeen_elements).getD 2 "").data.getLast? =
      some ',' :=
  ⟨by decide,
    (C5_elset_label_lines seventeen_elements).2.2.2.1 _ (by decide)⟩

/-- C3: for every valid configuration (count at least 1, minimum not above
maximum), the generated scale-factor sequence is exactly `[min]` for a single
count, equals `min + i*(max-min)/(count-1)` at every index `i` for larger
counts, and is monotonically non-decreasing. -/
theorem C3_scale_sequence_law (c : ℤ) (mn mx : ℚ) (h1 : 1 ≤ c)
    (h2 : mn ≤ mx) : ScaleSeqLaw c mn mx := by
  refine ⟨?_, ?_, ?_⟩
  · intro hc
    subst hc
    norm_num [scale_sequence, scale_factor, List.range_succ]
  · intro hc i hi
    unfold scale_sequence
    rw [List.getD_eq_getElem?_getD, List.getElem?_map, List.getElem?_range hi]
    show scale_factor c mn mx i = _
    unfold scale_factor
    rw [if_neg (by omega : ¬ c = 1)]
  · unfold scale_sequence
    rw [List.pairwise_map]
    refine (List.pairwise_lt_range _).imp ?_
    intro i j hij
    unfold scale_factor
    split_ifs with hc
    · exact le_refl _
    · have hpos : 0 < (c : ℚ) - 1 := by
        have : (2 : ℚ) ≤ (c : ℚ) := by exact_mod_cast (by omega : (2 : ℤ) ≤ c)
        linarith
      have hij' : (i : ℚ) * (mx - mn) ≤ (j : ℚ) * (mx - mn) :=
        mul_le_mul_of_nonneg_right (by exact_mod_cast hij.le) (by linarith)
      exact add_le_add_left ((div_le_div_iff_of_pos_right hpos).mpr hij') mn

/-- C3 witness: three scale factors between 1 and 2. -/
theorem C3_witness : (1 ≤ (3 : ℤ)) ∧ ((1 : ℚ) ≤ 2) ∧ ScaleSeqLaw 3 1 2 :=
  ⟨by decide, by norm_num,
    C3_scale_sequence_law 3 1 2 (by decide) (by norm_num)⟩

/-- C8: the data line `inject_stress_field` builds for a category under scale
factor `k` carries the componentwise product of `k` with the category's
stress vector, in component order; with stress vector `[1,2,3,4,5,6]` and
scale `5/2 = 2.5` the six values are `[2.5, 5, 7.5, 10, 12.5, 15]`. -/
theorem C8_stress_scaling (c : MeshElementCategory) (k : ℚ) (s : List ℚ) :
    (scaled_stress k s).length = s.length ∧
    (∀ i : ℕ, (scaled_stress k s).getD i 0 = k * s.getD i 0) ∧
    scaled_stress (5 / 2) [1, 2, 3, 4, 5, 6] =
      [5 / 2, 5, 15 / 2, 10, 25 / 2, 15] ∧
    stress_data_line c k =
      (scaled_stress k c.get_stress).foldl
        (fun line v => line ++ toString v ++ ",")
        (c.instance_name ++ "." ++ c.get_set_name ++ ",") := by
  refine ⟨List.length_map _ _, ?_, by norm_num [scaled_stress], rfl⟩
  intro i
  induction s generalizing i with
  | nil => simp [scaled_stress]
  | cons a t ih =>
    cases i with
    | zero => simp [scaled_stress]
    | succ n => simpa [scaled_stress] using ih n

theorem pmd_find_eq_none (pmd : PartMeshData) (k : CategoryKey) :
    k ∉ pmd.map Prod.fst → pmd_find pmd k = none := by
  induction pmd with
  | nil => intro _; rfl
  | cons kc rest ih =>
    intro h
    obtain ⟨k1, c1⟩ := kc
    simp only [List.map_cons, List.mem_cons, not_or] at h
    simp only [pmd_find]
    rw [if_neg (fun he => h.1 he.symm)]
    exact ih h.2

theorem characterize_elements_false_spec (script : StressScript)
    (ikey pname : String) :
    ∀ (els : List MeshElement) (pmd : PartMeshData),
      (pmd.map Prod.fst ++
        els.map (fun e => CategoryKey.ofLabel e.label)).Nodup →
      (∀ kc ∈ pmd, ∃ e, kc.2.elements = [e] ∧
        kc.1 = CategoryKey.ofLabel e.label) →
      ∃ pmd', characterize_elements false script ikey pname els pmd =
          some pmd' ∧
        ∀ kc ∈ pmd', ∃ e, kc.2.elements = [e] ∧
          kc.1 = CategoryKey.ofLabel e.label := by
  intro els
  induction els with
  | nil =>
    intro pmd _ hprop
    exact ⟨pmd, rfl, hprop⟩
  | cons el rest ih =>
    intro pmd hnodup hprop
    have hfresh : CategoryKey.ofLabel el.label ∉ pmd.map Prod.fst := by
      rw [List.nodup_append] at hnodup
      intro hmem
      exact hnodup.2.2 hmem (by simp)
    simp only [characterize_elements, Bool.false_eq_true, if_false]
    unfold pmd_store
    rw [pmd_find_eq_none _ _ hfresh]

    have hlist : ((pmd ++
        [(CategoryKey.ofLabel el.label,
          MeshElementCategory.make (CategoryKey.ofLabel el.label)
            ⟨ikey, pname, el.label, (element_centroid el.nodes).1,
              (element_centroid el.nodes).2.1,
              (element_centroid el.nodes).2.2⟩)]).map Prod.fst ++
        rest.map (fun e => CategoryKey.ofLabel e.label)) =
        pmd.map Prod.fst ++
          (CategoryKey.ofLabel el.label ::
            rest.map (fun e => CategoryKey.ofLabel e.label)) := by
      simp [List.append_assoc]
    refine ih _ (by rw [hlist]; simpa using hnodup) ?_
    intro kc hkc
    rcases List.mem_append.mp hkc with hold | hnew
    · exact hprop kc hold
    · simp only [List.mem_singleton] at hnew
      subst hnew
      exact ⟨_, rfl, rfl⟩

theorem characterize_slots_false_spec (script : StressScript) :
    ∀ (instances : List (String × PartInstance))
      (md : List (Option PartMeshData)),
      characterize_slots false script instances = some md →
      (∀ ip ∈ instances, (ip.2.elements.map MeshElement.label).Nodup) →
      ∀ slot ∈ md, ∀ pmd, slot = some pmd →
        ∀ kc ∈ pmd, ∃ e, kc.2.elements = [e] ∧
          kc.1 = CategoryKey.ofLabel e.label := by
  intro instances
  induction instances with
  | nil =>
    intro md hmd _
    simp only [characterize_slots, Option.some_inj] at hmd
    subst hmd
    intro slot hslot
    simp at hslot
  | cons inst rest ih =>
    intro md hmd hnodup
    simp only [characterize_slots] at hmd
    by_cases hlen : inst.2.elements.length > 0
    · rw [if_pos hlen] at hmd
      cases hce : characterize_elements false script inst.1
          inst.2.part_name inst.2.elements [] with
      | none => rw [hce] at hmd; exact absurd hmd (by simp)
      | some pmd0 =>
        rw [hce] at hmd
        obtain ⟨tail, htail, hmd⟩ := Option.map_eq_some'.mp hmd
        subst hmd
        have hn0 : (([] : PartMeshData).map Prod.fst ++
            inst.2.elements.map
              (fun e => CategoryKey.ofLabel e.label)).Nodup := by
          simp only [List.map_nil, List.nil_append]
          rw [show inst.2.elements.map
              (fun e => CategoryKey.ofLabel e.label) =
              (inst.2.elements.map MeshElement.label).map
                CategoryKey.ofLabel from by simp [List.map_map]]
          exact (hnodup inst (by simp)).map
            (fun _ _ h => CategoryKey.ofLabel.inj h)
        obtain ⟨pmd', hpmd', hspec⟩ :=
          characterize_elements_false_spec script inst.1 inst.2.part_name
            inst.2.elements [] hn0 (by simp)
        rw [hce] at hpmd'
        intro slot hslot pmd hpmd kc hkc
        rcases List.mem_cons.mp hslot with rfl | hmem
        · have : pmd0 = pmd' := by
            simpa using hpmd'
          cases hpmd
          exact hspec kc (this ▸ hkc)
        · exact ih tail htail (fun ip hip => hnodup ip (by simp [hip]))
            slot hmem pmd hpmd kc hkc
    · rw [if_neg hlen] at hmd
      obtain ⟨tail, htail, hmd⟩ := Option.map_eq_some'.mp hmd
      subst hmd
      intro slot hslot pmd hpmd kc hkc
      rcases List.mem_cons.mp hslot with rfl | hmem
      · exact absurd hpmd (by simp)
      · exact ih tail htail (fun ip hip => hnodup ip (by simp [hip]))
          slot hmem pmd hpmd kc hkc

/-- C7: when the stress script supplies no usable classifier, every category
produced by `characterize_mesh` is a singleton containing exactly one
element, and its category key is that element's own label (the element
labels being unique within each instance, as the host mesh guarantees). -/
theorem C7_singleton_categories (instances : List (String × PartInstance))
    (script : StressScript)
    (hnc : (script.loads && script.defines_get_category &&
      script.get_category_callable) = false)
    (hnodup : ∀ ip ∈ instances, (ip.2.elements.map MeshElement.label).Nodup)
    (md : MeshData) (h : characterize_mesh instances script = some md) :
    ∀ slot ∈ md, ∀ pmd, slot = some pmd →
      ∀ kc ∈ pmd, ∃ e, kc.2.elements = [e] ∧
        kc.1 = CategoryKey.ofLabel e.label := by
  simp only [characterize_mesh, hnc] at h
  cases hslots : characterize_slots false script instances with
  | none => rw [hslots] at h; exact absurd h (by simp)
  | some md' =>
    rw [hslots] at h
    have h2 : (if md'.all Option.isNone = true then (none : Option MeshData)
        else some md') = some md := h
    by_cases hall : md'.all Option.isNone = true
    · rw [if_pos hall] at h2
      exact absurd h2 (by simp)
    · rw [if_neg hall, Option.some_inj] at h2
      subst h2
      exact characterize_slots_false_spec script instances md' hslots hnodup

/-- C7 witness: two one-node elements without a classifier give two singleton
categories keyed by the element labels. -/
theorem C7_witness :
    characterize_mesh c7_instances c6_script = some c7_result ∧
    (∃ e, (MeshElementCategory.make (.ofLabel 1)
        ⟨"I-1", "P", 1, 0, 0, 0⟩).elements = [e] ∧
      CategoryKey.ofLabel 1 = CategoryKey.ofLabel e.label) := by
  have hcm : characterize_mesh c7_instances c6_script = some c7_result := by
    norm_num [characterize_mesh, characterize_slots, characterize_elements,
      element_centroid, pmd_store, pmd_find, MeshElementCategory.make,
      c7_instances, c6_script, plain_script, c7_result]
  refine ⟨hcm, ?_⟩
  exact C7_singleton_categories c7_instances c6_script (by decide)
    (by decide) c7_result hcm (c7_result.getD 0 none) (by decide)
    [(.ofLabel 1, MeshElementCategory.make (.ofLabel 1)
        ⟨"I-1", "P", 1, 0, 0, 0⟩),
     (.ofLabel 2, MeshElementCategory.make (.ofLabel 2)
        ⟨"I-1", "P", 2, 2, 0, 0⟩)] (by decide)
    (.ofLabel 1, MeshElementCategory.make (.ofLabel 1)
      ⟨"I-1", "P", 1, 0, 0, 0⟩) (by decide)

theorem pmd_find_map (pmd : PartMeshData) (k : CategoryKey)
    (f : MeshElementCategory → MeshElementCategory) :
    pmd_find (pmd.map fun kc => (kc.1, f kc.2)) k =
      (pmd_find pmd k).map f := by
  induction pmd with
  | nil => rfl
  | cons kc rest ih =>
    obtain ⟨k1, c1⟩ := kc
    by_cases hk : k1 = k
    · simp [pmd_find, hk]
    · simp only [List.map_cons, pmd_find, if_neg hk]
      exact ih

theorem md_getD_map (md : MeshData)
    (g : Option PartMeshData → Option PartMeshData) (p : ℕ)
    (pmd : PartMeshData) (h : md.getD p none = some pmd) :
    (md.map g).getD p none = g (some pmd) := by
  induction md generalizing p with
  | nil => simp [List.getD] at h
  | cons slot rest ih =>
    cases p with
    | zero =>
      simp only [List.getD_cons_zero] at h
      simp [List.getD_cons_zero, h]
    | succ n =>
      simp only [List.getD_cons_succ] at h
      simpa [List.getD_cons_succ] using ih n h

theorem mem_pmd_log_base (script : StressScript) (pmd : PartMeshData)
    (log0 : List String) (x : String) (hx : x ∈ log0) :
    x ∈ pmd.foldr
      (fun kc l => (define_stress_for_category script kc.2).2 ++ l) log0 := by
  induction pmd with
  | nil => exact hx
  | cons kc rest ih => exact List.mem_append_right _ ih

theorem mem_pmd_log_find (script : StressScript) (pmd : PartMeshData)
    (k : CategoryKey) (c : MeshElementCategory) (log0 : List String)
    (x : String) (hfind : pmd_find pmd k = some c)
    (hx : x ∈ (define_stress_for_category script c).2) :
    x ∈ pmd.foldr
      (fun kc l => (define_stress_for_category script kc.2).2 ++ l) log0 := by
  induction pmd with
  | nil => exact absurd hfind (by simp [pmd_find])
  | cons kc rest ih =>
    obtain ⟨k1, c1⟩ := kc
    simp only [pmd_find] at hfind
    by_cases hk : k1 = k
    · rw [if_pos hk, Option.some_inj] at hfind
      subst hfind
      exact List.mem_append_left _ hx
    · rw [if_neg hk] at hfind
      exact List.mem_append_right _ (ih hfind)

theorem mem_md_log (script : StressScript) (md : MeshData) (p : ℕ)
    (k : CategoryKey) (pmd : PartMeshData) (c : MeshElementCategory)
    (x : String) (hslot : md.getD p none = some pmd)
    (hfind : pmd_find pmd k = some c)
    (hx : x ∈ (define_stress_for_category script c).2) :
    x ∈ md.foldr
      (fun slot log =>
        match slot with
        | none => log
        | some pmd1 =>
          pmd1.foldr
            (fun kc l => (define_stress_for_category script kc.2).2 ++ l)
            log)
      [] := by
  induction md generalizing p with
  | nil => simp [List.getD] at hslot
  | cons slot rest ih =>
    cases p with
    | zero =>
      simp only [List.getD_cons_zero] at hslot
      subst hslot
      simp only [List.foldr_cons]
      exact mem_pmd_log_find script pmd k c _ x hfind hx
    | succ n =>
      simp only [List.getD_cons_succ] at hslot
      simp only [List.foldr_cons]
      cases slot with
      | none => exact ih n hslot
      | some pmd1 => exact mem_pmd_log_base script pmd1 _ x (ih n hslot)

/-- C6: whenever `calculate_stress` raises for a category (in particular in a
mesh where it raises for exactly one category), `define_stresses` assigns
that category the zero stress vector, emits the diagnostic naming the
category, does not abort the run, and every category whose stress computation
succeeds — in particular every sibling of the failing one — retains its
computed stress value. -/
theorem C6_recoverable_stress_failure (md : MeshData) (script : StressScript)
    (hl : script.loads = true) (p : ℕ) (k : CategoryKey)
    (pmd : PartMeshData) (c : MeshElementCategory)
    (hslot : md.getD p none = some pmd)
    (hfind : pmd_find pmd k = some c)
    (hfail : script.calculate_stress c.get_first_element.part_name
      c.get_first_element.x c.get_first_element.y
      c.get_first_element.z = none) :
    StressAssignmentSpec md script p k c := by
  have hdsfc : define_stress_for_category script c =
      (c.define_stress [0, 0, 0, 0, 0, 0], [stress_failure_message c]) := by
    simp only [define_stress_for_category]
    rw [hfail]
  have hds : define_stresses md script =
      some (md.map (fun slot =>
        match slot with
        | none => none
        | some pmd1 =>
          some (pmd1.map fun kc =>
            (kc.1, (define_stress_for_category script kc.2).1))),
        md.foldr
          (fun slot log =>
            match slot with
            | none => log
            | some pmd1 =>
              pmd1.foldr
                (fun kc l =>
                  (define_stress_for_category script kc.2).2 ++ l)
                log)
          []) := by
    unfold define_stresses
    rw [hl]
    simp
  refine ⟨_, _, hds, ?_, ?_, ?_⟩
  · refine ⟨pmd.map (fun kc =>
      (kc.1, (define_stress_for_category script kc.2).1)), ?_, ?_⟩
    · exact md_getD_map md _ p pmd hslot
    · rw [pmd_find_map pmd k
        (fun c0 => (define_stress_for_category script c0).1), hfind]
      simp [hdsfc]
  · refine mem_md_log script md p k pmd c _ hslot hfind ?_
    rw [hdsfc]
    simp
  · intro q k1 pmd1 c1 v hq hfind1 hsucc
    refine ⟨pmd1.map (fun kc =>
      (kc.1, (define_stress_for_category script kc.2).1)), ?_, ?_⟩
    · exact md_getD_map md _ q pmd1 hq
    · rw [pmd_find_map pmd1 k1
        (fun c0 => (define_stress_for_category script c0).1), hfind1]
      have : define_stress_for_category script c1 =
          (c1.define_stress v, []) := by
        simp only [define_stress_for_category]
        rw [hsucc]
      simp [this]

/-- C6 witness: of the two categories of `c6_mesh`, the script raises only
for the one at the origin; it is zeroed while its sibling keeps its value. -/
theorem C6_witness :
    StressAssignmentSpec c6_mesh c6_script 0 (.ofLabel 1)
      c6_failing_category :=
  C6_recoverable_stress_failure c6_mesh c6_script (by decide) 0 (.ofLabel 1)
    [(.ofLabel 1, c6_failing_category),
     (.ofLabel 2, MeshElementCategory.make (.ofLabel 2) ⟨"I-1", "P", 2, 1, 0, 0⟩)]
    c6_failing_category (by decide) (by decide) (by decide)

/-- C1 (counterexample evidence, code bug): with two scale factors, the
stress-field injection for the second scale operates on the very buffer the
first injection mutated — the source says `Create a copy of the default
input` but `lines = default_input` only aliases it — so the file written for
the second scale factor contains the header and data lines inserted for the
first one as well: its line counts for the injected marker line and for the
category data line are 2, not 1.  The claim says each call operates on an
independent copy and lines injected for one scale factor never appear in the
file of another. -/
theorem C1_stress_injection_shares_buffer :
    ((create_jobs_files c1_mesh 2 1 2 c1_base 1 false).getD 0 []).count
        "*Initial Conditions, type=STRESS" = 1 ∧
    ((create_jobs_files c1_mesh 2 1 2 c1_base 1 false).getD 0 []).count
        "I-1.Set-1," = 1 ∧
    ((create_jobs_files c1_mesh 2 1 2 c1_base 1 false).getD 1 []).count
        "*Initial Conditions, type=STRESS" = 2 ∧
    ((create_jobs_files c1_mesh 2 1 2 c1_base 1 false).getD 1 []).count
        "I-1.Set-1," = 2 ∧
    (create_jobs_files c1_mesh 2 1 2 c1_base 1 false).getD 0 [] ≠ c1_base := by
  decide

theorem getElem?_of_drop (buffer : List String) (nl : ℕ) (l : String)
    (rest : List String) (h : buffer.drop nl = l :: rest) :
    buffer[nl]? = some l := by
  induction buffer generalizing nl with
  | nil => simp at h
  | cons b bs ih =>
    cases nl with
    | zero =>
      simp only [List.drop_zero] at h
      rw [h]
      simp
    | succ n =>
      simp only [List.drop_succ_cons] at h
      simpa using ih n h

theorem drop_succ_of_drop (buffer : List String) (nl : ℕ) (l : String)
    (rest : List String) (h : buffer.drop nl = l :: rest) :
    buffer.drop (nl + 1) = rest := by
  rw [show nl + 1 = nl + 1 from rfl, ← List.drop_drop 1 nl buffer, h,
    List.drop_succ_cons, List.drop_zero]

theorem match_pending_head (md : MeshData) (p : ℕ) (ps : List ℕ)
    (name : String) (pmd : PartMeshData)
    (hslot : md.getD p none = some pmd) (hne : pmd ≠ [])
    (hname : pmd.headI.2.part_name = name) :
    match_pending md name (p :: ps) = (ps, some p) := by
  simp only [match_pending, hslot]
  rw [if_neg (by simpa using hne), if_pos hname]

theorem drop_insert_lines (buffer : List String) (nl : ℕ)
    (block : List String) (marker : String) (rest : List String)
    (hread : buffer.drop nl = marker :: rest) :
    (insert_lines buffer nl block).drop (nl + block.length + 1) = rest := by
  have hnl : nl ≤ buffer.length := by
    by_contra hcon
    push_neg at hcon
    rw [List.drop_eq_nil_of_le hcon.le] at hread
    exact absurd hread (by simp)
  have hlen : ((buffer.take nl ++ block).length) = nl + block.length := by
    simp [List.length_take, Nat.min_eq_left hnl]
  unfold insert_lines
  rw [← List.drop_drop 1 (nl + block.length), List.drop_left' hlen, hread,
    List.drop_succ_cons, List.drop_zero]

theorem run_ok_break (md : MeshData) :
    ∀ (fuel : ℕ) (s s1 : ScanState),
      inject_sets_run md fuel s = .ok s1 →
      s1.pending = [] ∧ s1.cpi = none := by
  intro fuel
  induction fuel with
  | zero =>
    intro s s1 h
    exact absurd h (by simp [inject_sets_run])
  | succ f ih =>
    intro s s1 h
    cases hstep : inject_step md s with
    | error e =>
      simp only [inject_sets_run, hstep] at h
      exact absurd h (by simp)
    | ok s2 =>
      simp only [inject_sets_run, hstep] at h
      by_cases hbr : s2.pending.length ≤ 0 ∧ s2.cpi = none
      · rw [if_pos hbr] at h
        cases h
        exact ⟨List.length_eq_zero.mp (Nat.le_zero.mp hbr.1), hbr.2⟩
      · rw [if_neg hbr] at h
        exact ih s2 s1 h

theorem run_mono (md : MeshData) :
    ∀ (fuel k : ℕ) (s : ScanState) (r : Except PyError ScanState),
      inject_sets_run md fuel s = r → r ≠ .error .outOfFuel →
      inject_sets_run md (fuel + k) s = r := by
  intro fuel
  induction fuel with
  | zero =>
    intro k s r h hr
    rw [show inject_sets_run md 0 s = .error .outOfFuel from rfl] at h
    exact absurd h.symm (by simpa using hr)
  | succ f ih =>
    intro k s r h hr
    rw [show f + 1 + k = (f + k) + 1 from by omega]
    cases hstep : inject_step md s with
    | error e =>
      simp only [inject_sets_run, hstep] at h ⊢
      exact h
    | ok s2 =>
      simp only [inject_sets_run, hstep] at h ⊢
      by_cases hbr : s2.pending.length ≤ 0 ∧ s2.cpi = none
      · rw [if_pos hbr] at h ⊢; exact h
      · rw [if_neg hbr] at h ⊢; exact ih k s2 r h hr

theorem run_scan_skip (md : MeshData) (buffer : List String) (nl : ℕ)
    (p : ℕ) (ps : List ℕ) (l : String) (rest : List String) (fuel : ℕ)
    (hread : buffer.drop nl = l :: rest)
    (hl : ¬ py_take l 12 = "*Part, name=".data) :
    inject_sets_run md (fuel + 1) ⟨buffer, nl, p :: ps, none⟩ =
      inject_sets_run md fuel ⟨buffer, nl + 1, p :: ps, none⟩ := by
  have hget := getElem?_of_drop buffer nl l rest hread
  have hstep : inject_step md ⟨buffer, nl, p :: ps, none⟩ =
      .ok ⟨buffer, nl + 1, p :: ps, none⟩ := by
    simp only [inject_step, hget]
    rw [if_neg hl]
  simp only [inject_sets_run, hstep]
  rw [if_neg (by simp)]

theorem run_header_match (md : MeshData) (buffer : List String) (nl : ℕ)
    (pending pending1 : List ℕ) (idx : ℕ) (name : String)
    (rest : List String) (fuel : ℕ)
    (hread : buffer.drop nl = ("*Part, name=" ++ name) :: rest)
    (hmatch : match_pending md name pending = (pending1, some idx)) :
    inject_sets_run md (fuel + 1) ⟨buffer, nl, pending, none⟩ =
      inject_sets_run md fuel ⟨buffer, nl + 1 + 1, pending1, some idx⟩ := by
  have hget := getElem?_of_drop buffer nl _ rest hread
  have htake : py_take ("*Part, name=" ++ name) 12 = "*Part, name=".data := by
    unfold py_take
    rw [String.data_append]
    exact List.take_left' (by decide)
  have hdrop : py_drop ("*Part, name=" ++ name) 12 = name := by
    unfold py_drop
    rw [String.data_append, List.drop_left' (by decide)]
  have hstep : inject_step md ⟨buffer, nl, pending, none⟩ =
      .ok ⟨buffer, nl + 1 + 1, pending1, some idx⟩ := by
    simp only [inject_step, hget]
    rw [if_pos htake, hdrop, hmatch]
  simp only [inject_sets_run, hstep]
  rw [if_neg (by simp)]

theorem run_body_skip (md : MeshData) (buffer : List String) (nl : ℕ)
    (pending : List ℕ) (pi0 : ℕ) (l : String) (rest : List String)
    (fuel : ℕ) (hread : buffer.drop nl = l :: rest) (hbody : BodyLine l) :
    inject_sets_run md (fuel + 1) ⟨buffer, nl, pending, some pi0⟩ =
      inject_sets_run md fuel ⟨buffer, nl + 1, pending, some pi0⟩ := by
  have hget := getElem?_of_drop buffer nl l rest hread
  obtain ⟨hne, hcase⟩ := hbody
  have hstep : inject_step md ⟨buffer, nl, pending, some pi0⟩ =
      .ok ⟨buffer, nl + 1, pending, some pi0⟩ := by
    cases hdata : l.data with
    | nil => exact absurd hdata hne
    | cons cch t =>
      simp only [inject_step, hget, hdata]
      by_cases hsp : cch = ' '
      · rw [if_pos hsp]
      · rw [if_neg hsp]
        by_cases hst : cch = '*'
        · have hel : py_take l 15 = "*Element, type=".data := by
            rcases hcase with hh | hh | hh
            · rw [hdata] at hh
              simp only [List.headI] at hh
              exact absurd hh hsp
            · rw [hdata] at hh
              simp only [List.headI] at hh
              exact absurd hst hh
            · exact hh
          rw [if_pos hst, if_pos hel]
        · rw [if_neg hst]
  simp only [inject_sets_run, hstep]
  rw [if_neg (by simp)]

theorem run_body_all (md : MeshData) :
    ∀ (body : List String) (buffer : List String) (nl : ℕ)
      (pending : List ℕ) (pi0 : ℕ) (rest : List String) (fuel : ℕ),
      (∀ l ∈ body, BodyLine l) → buffer.drop nl = body ++ rest →
      inject_sets_run md (fuel + body.length) ⟨buffer, nl, pending, some pi0⟩ =
        inject_sets_run md fuel
          ⟨buffer, nl + body.length, pending, some pi0⟩ := by
  intro body
  induction body with
  | nil => intro buffer nl pending pi0 rest fuel _ _; simp
  | cons l body ih =>
    intro buffer nl pending pi0 rest fuel hb hread
    have h1 : buffer.drop nl = l :: (body ++ rest) := by simpa using hread
    rw [show fuel + (l :: body).length = (fuel + body.length) + 1 from by
      simp; omega]
    rw [run_body_skip md buffer nl pending pi0 l (body ++ rest)
      (fuel + body.length) h1 (hb l (by simp))]
    rw [ih buffer (nl + 1) pending pi0 rest fuel
      (fun x hx => hb x (by simp [hx])) (drop_succ_of_drop _ _ _ _ h1)]
    rw [show nl + 1 + body.length = nl + (l :: body).length from by
      simp; omega]

theorem run_marker_inject (md : MeshData) (buffer : List String) (nl : ℕ)
    (pending : List ℕ) (pi0 : ℕ) (marker : String) (rest : List String)
    (fuel : ℕ) (pmd : PartMeshData)
    (hread : buffer.drop nl = marker :: rest)
    (hmark : MarkerLine marker)
    (hslot : md.getD pi0 none = some pmd) :
    inject_sets_run md (fuel + 1) ⟨buffer, nl, pending, some pi0⟩ =
      if pending.length ≤ 0 then
        .ok ⟨insert_lines buffer nl (elset_injection_block pmd),
          nl + (elset_injection_block pmd).length + 1, pending, none⟩
      else
        inject_sets_run md fuel
          ⟨insert_lines buffer nl (elset_injection_block pmd),
            nl + (elset_injection_block pmd).length + 1, pending, none⟩ := by
  obtain ⟨hhead, hel⟩ := hmark
  have hget := getElem?_of_drop buffer nl marker rest hread
  have hstep : inject_step md ⟨buffer, nl, pending, some pi0⟩ =
      .ok ⟨insert_lines buffer nl (elset_injection_block pmd),
        nl + (elset_injection_block pmd).length + 1, pending, none⟩ := by
    cases hdata : marker.data with
    | nil => rw [hdata] at hhead; exact absurd hhead (by simp)
    | cons cch t =>
      have hc : cch = '*' := by
        rw [hdata] at hhead
        simpa using hhead
      subst hc
      simp only [inject_step, hget, hdata]
      rw [if_pos trivial, if_neg hel, hslot]
      simp
  simp only [inject_sets_run, hstep]
  by_cases hp : pending.length ≤ 0
  · rw [if_pos (by simp [hp]), if_pos hp]
  · rw [if_neg (by simp [hp]), if_neg hp]

theorem good_run (md : MeshData) :
    ∀ {pending : List ℕ} {suffix : List String},
      GoodSuffix md pending suffix → pending ≠ [] →
      ∀ (buffer : List String) (nl : ℕ), buffer.drop nl = suffix →
        ∃ fuel s, inject_sets_run md fuel ⟨buffer, nl, pending, none⟩ =
          .ok s := by
  intro pending suffix hgood
  induction hgood with
  | nil s0 =>
    intro hne
    exact absurd rfl hne
  | skip l p ps rest hl hg ih =>
    intro _ buffer nl hread
    obtain ⟨fuel, s, hs⟩ :=
      ih (by simp) buffer (nl + 1) (drop_succ_of_drop _ _ _ _ hread)
    exact ⟨fuel + 1, s, by
      rw [run_scan_skip md buffer nl p ps l rest fuel hread hl]
      exact hs⟩
  | block p ps name node body marker rest pmd hslot hne1 hname hbody hmark
      hg ih =>
    intro _ buffer nl hread
    have hmp : match_pending md name (p :: ps) = (ps, some p) :=
      match_pending_head md p ps name pmd hslot hne1 hname
    have h1 : buffer.drop (nl + 1) = node :: (body ++ marker :: rest) :=
      drop_succ_of_drop _ _ _ _ hread
    have h2 : buffer.drop (nl + 1 + 1) = body ++ marker :: rest :=
      drop_succ_of_drop _ _ _ _ h1
    have h3 : buffer.drop (nl + 1 + 1 + body.length) = marker :: rest := by
      rw [← List.drop_drop body.length (nl + 1 + 1) buffer, h2,
        List.drop_left]
    by_cases hps : ps = []
    · subst hps
      refine ⟨(1 + body.length) + 1,
        ⟨insert_lines buffer (nl + 1 + 1 + body.length)
            (elset_injection_block pmd),
          nl + 1 + 1 + body.length + (elset_injection_block pmd).length + 1,
          [], none⟩, ?_⟩
      rw [run_header_match md buffer nl (p :: []) [] p name _
        (1 + body.length) hread hmp]
      rw [show (1 : ℕ) + body.length = 1 + body.length from rfl]
      rw [run_body_all md body buffer (nl + 1 + 1) [] p (marker :: rest) 1
        hbody h2]
      rw [show (1 : ℕ) = 0 + 1 from rfl]
      rw [run_marker_inject md buffer (nl + 1 + 1 + body.length) [] p marker
        rest 0 pmd h3 hmark hslot]
      rw [if_pos (by simp)]
    · obtain ⟨fuelr, s, hs⟩ := ih hps
        (insert_lines buffer (nl + 1 + 1 + body.length)
          (elset_injection_block pmd))
        (nl + 1 + 1 + body.length + (elset_injection_block pmd).length + 1)
        (drop_insert_lines buffer _ _ marker rest h3)
      refine ⟨((fuelr + 1) + body.length) + 1, s, ?_⟩
      rw [run_header_match md buffer nl (p :: ps) ps p name _
        ((fuelr + 1) + body.length) hread hmp]
      rw [run_body_all md body buffer (nl + 1 + 1) ps p (marker :: rest)
        (fuelr + 1) hbody h2]
      rw [run_marker_inject md buffer (nl + 1 + 1 + body.length) ps p marker
        rest fuelr pmd h3 hmark hslot]
      rw [if_neg (by simpa using hps)]
      exact hs

/-- C9 (counterexample, claim as stated): `cex_deck` contains the
part-header line and an injection-point marker line for the single non-empty
pending instance of `cex_mesh`, yet the element-set scan does not reach its
normal exit: the element-less trailing slot is only ever dropped from the
pending list when a later part header is scanned, and none follows, so the
loop runs off the end of the line buffer (an IndexError) with the pending
list still non-empty. -/
theorem C9_counterexample :
    (cex_deck.getD 0 "" = "*Part, name=" ++ "A" ∧
      cex_mesh.getD 0 none =
        some [(.ofLabel 1, cex_category)] ∧
      cex_category.part_name = "A" ∧
      MarkerLine (cex_deck.getD 2 "")) ∧
    ¬ ScanTerminatesOk cex_mesh cex_deck := by
  refine ⟨⟨by decide, by decide, by decide, by decide, by decide⟩, ?_⟩
  rintro ⟨fuel, s, h⟩
  unfold inject_element_sets at h
  cases hrun : inject_sets_run cex_mesh fuel
      ⟨cex_deck, 0, List.range cex_mesh.length, none⟩ with
  | error e =>
    rw [hrun] at h
    exact absurd h (by simp [Except.map])
  | ok s1 =>
    have h3 : inject_sets_run cex_mesh 3
        ⟨cex_deck, 0, List.range cex_mesh.length, none⟩ =
        .error .indexError := by decide
    have ha := run_mono cex_mesh fuel 3 _ _ hrun (by simp)
    have hb := run_mono cex_mesh 3 fuel _ _ h3 (by simp)
    rw [show fuel + 3 = 3 + fuel from by omega] at ha
    rw [ha] at hb
    exact absurd hb (by simp)

/-- C9 (amended): for every mesh data whose pending list is non-empty and
every deck that, in pending order, provides for each pending instance a
non-empty slot together with a part-header block (header line, node line,
body lines, injection marker line), with non-header lines interleaved before
blocks — in particular when every instance slot is non-empty, since the
kernel drops an empty slot from the pending list only upon scanning a later
part header — the element-set scan terminates normally; and every normal
exit of the scan loop, on any input whatsoever, happens exactly when the
pending list is empty and the machine is not in the injection state, never
mid-splice. -/
theorem C9_amended_scan_termination (md : MeshData) (deck : List String)
    (p : ℕ) (ps : List ℕ)
    (hrange : List.range md.length = p :: ps)
    (hgood : GoodSuffix md (p :: ps) deck) :
    (∃ fuel s, inject_element_sets md deck fuel = .ok s) ∧
    (∀ fuel s0 s1, inject_sets_run md fuel s0 = .ok s1 →
      s1.pending = [] ∧ s1.cpi = none) := by
  constructor
  · obtain ⟨fuel, s, hs⟩ := good_run md hgood (by simp) deck 0 (by simp)
    refine ⟨fuel, (s.buffer, s.next_line), ?_⟩
    unfold inject_element_sets
    rw [hrange, hs]
    rfl
  · intro fuel s0 s1 h
    exact run_ok_break md fuel s0 s1 h

/-- C9 witness: a deck with one well-formed block for the single non-empty
instance is scanned to a normal exit. -/
theorem C9_witness :
    GoodSuffix good_mesh [0] good_deck ∧
    (∃ fuel s, inject_element_sets good_mesh good_deck fuel = .ok s) := by
  have hgood : GoodSuffix good_mesh [0] good_deck :=
    GoodSuffix.block 0 [] "A" "*Node" [" 1, 0.5, 0.5, 0.5"] "*End Part" []
      [(.ofLabel 1, cex_category)] (by decide) (by decide) (by decide)
      (by decide) (by decide) (GoodSuffix.nil [])
  exact ⟨hgood,
    (C9_amended_scan_termination good_mesh good_deck 0 [] (by decide)
      hgood).1⟩
